import Mathlib

/-!
Shallow embedding of the batch execution engine of the `scrapingbee-cli`
repository (files `src/scrapingbee_cli/batch.py` and the `parse_usage`
function of `src/scrapingbee_cli/client.py`), together with theorems that
settle the claims of the specification against it.

Modelling decisions, stated once here:

* Python `bytes` values are modelled as `List Nat` (the byte values).
* Python exceptions raised by a function are modelled by returning
  `Except String α`; the string is the exception's message.
* The worker callback `fn` of `run_batch` returns a
  `(body, status_code, error)` triple without raising, exactly as claim C1
  assumes; its `error` component (`Exception | None` in the source) is
  modelled as `Option String`.
* The nondeterministic completion order of `concurrent.futures.as_completed`
  is made explicit: `run_batch` takes an extra argument `order`, the list of
  input indices in the order in which their futures complete.  Since
  `as_completed` yields every submitted future exactly once, a real execution
  corresponds to an `order` that is a permutation of `List.range n`.
* The file system is modelled effect-wise: the result writer returns the list
  of `(path, bytes)` write events it performs, the lines it prints to stderr,
  and its return value.  `os.makedirs(..., exist_ok=True)` never fails, so the
  model is total.  A store (`String → Option Bytes`) together with
  `applyEvents` gives the final file contents.
* Path resolution (`Path(dir).resolve()`) is modelled by prefixing the current
  working directory to a relative path.
* JSON documents are modelled by the inductive `JsonVal`; a JSON number
  decodes, as in Python's `json.loads`, to either an arbitrary-precision
  integer or a float.  `PyNum` covers both: `PyNum.int n` is a Python `int`,
  `PyNum.float n d` is a finite float of exact value `n / (d + 1)` (every
  binary64 value is such a fraction, and float comparison with ints is exact
  rational comparison), and `PyNum.inf` / `PyNum.ninf` / `PyNum.nan` are the
  special floats (`json.loads` itself produces them, e.g. `1e400` decodes to
  `inf` and the literals `Infinity` / `NaN` are accepted).  Python's `int(v)`
  is the identity on ints, truncates finite floats toward zero (`pyInt` via
  `Int.tdiv`), and raises `OverflowError` on infinities and `ValueError` on
  `nan` — exceptions `parse_usage` does not catch.  `json.loads` keeps the
  last binding of a duplicated object key, hence `dictGet` looks bindings up
  from the right.  Python's `isinstance(v, (int, float))` accepts booleans
  (`bool` is a subclass of `int`), so `asNum` maps `true`/`false` to
  `1`/`0`.
* `parse_usage` receives `none` when `json.loads` raised `JSONDecodeError`
  (the only exception the source catches) and `some v` when the body decoded
  to the JSON value `v`.
-/

abbrev Bytes := List Nat

/-- Result of one batch item (`BatchResult` dataclass in `batch.py`):
fields are `index`, `input`, `body`, `status_code`, `error`. -/
structure BatchResult where
  index : Nat
  input : String
  body : Bytes
  status_code : Int
  error : Option String
deriving DecidableEq, Repr

/-! ## Input loader (`read_input_file`) -/

/-- Python `str.isspace` characters relevant to `str.strip`:
space, tab, newline, carriage return, vertical tab, form feed. -/
def pyIsSpace (c : Char) : Bool :=
  c = ' ' || c = '\t' || c = '\n' || c = '\r' || c = Char.ofNat 11 || c = Char.ofNat 12

/-- Python `str.strip()`: drop leading and trailing whitespace. -/
def pyStrip (s : String) : String :=
  String.mk (((s.data.dropWhile pyIsSpace).reverse.dropWhile pyIsSpace).reverse)

/-- Split a character list at newline characters. -/
def splitLinesAux : List Char → List Char → List (List Char)
  | [], acc => [acc.reverse]
  | c :: rest, acc =>
      if c = '\n' then acc.reverse :: splitLinesAux rest [] else splitLinesAux rest (c :: acc)

/-- The lines of a file's text content.  Python iterates a text file line by
line keeping the trailing newline; since every line is immediately passed
through `strip()`, splitting at newlines is an equivalent model. -/
def splitLines (s : String) : List String :=
  (splitLinesAux s.data []).map String.mk

/-- `read_input_file` from `batch.py`: the comprehension
`[line.strip() for line in f if line.strip()]`, then an error when nothing
remains.  `content` is the text of the file at `path`. -/
def read_input_file (path : String) (content : String) : Except String (List String) :=
  let lines := (splitLines content).filterMap (fun line =>
    let t := pyStrip line
    if t = "" then none else some t)
  if lines = [] then
    .error ("input file \"" ++ path ++ "\" has no non-empty lines")
  else
    .ok lines

/-- Following the spec's words: split into lines, trim surrounding whitespace
per line, discard lines that become empty. -/
def specTrimmedLines (content : String) : List String :=
  ((splitLines content).map pyStrip).filter (fun t => t ≠ "")

/-! ## Usage parsing (`parse_usage` in `client.py`) -/

/-- A Python numeric value as produced by `json.loads`: an `int`, a finite
float of exact value `n / (d + 1)`, or one of the special floats. -/
inductive PyNum where
  | int : Int → PyNum
  | float : Int → Nat → PyNum
  | inf : PyNum
  | ninf : PyNum
  | nan : PyNum
deriving DecidableEq, Repr

/-- Python `0 < v`: exact rational comparison; `inf` is positive, `-inf` is
not, and every comparison with `nan` is false. -/
def PyNum.gt0 : PyNum → Bool
  | .int n => 0 < n
  | .float n _ => 0 < n
  | .inf => true
  | .ninf => false
  | .nan => false

/-- Python `v <= 10000`: exact rational comparison
(`n / (d + 1) ≤ 10000 ↔ n ≤ 10000 * (d + 1)`). -/
def PyNum.le10000 : PyNum → Bool
  | .int n => n ≤ 10000
  | .float n d => n ≤ 10000 * ((d : Int) + 1)
  | .inf => false
  | .ninf => true
  | .nan => false

/-- Python `v >= 0`: exact rational comparison; `inf ≥ 0` holds and every
comparison with `nan` is false. -/
def PyNum.ge0 : PyNum → Bool
  | .int n => 0 ≤ n
  | .float n _ => 0 ≤ n
  | .inf => true
  | .ninf => false
  | .nan => false

/-- Python `int(v)`: identity on ints, truncation toward zero on finite
floats, `OverflowError` on infinities, `ValueError` on `nan`. -/
def pyInt : PyNum → Except String Int
  | .int n => .ok n
  | .float n d => .ok (n.tdiv ((d : Int) + 1))
  | .inf => .error "OverflowError"
  | .ninf => .error "OverflowError"
  | .nan => .error "ValueError"

/-- A decoded JSON document. -/
inductive JsonVal where
  | null : JsonVal
  | bool : Bool → JsonVal
  | num : PyNum → JsonVal
  | str : String → JsonVal
  | arr : List JsonVal → JsonVal
  | obj : List (String × JsonVal) → JsonVal
deriving Repr

/-- The usage dictionary built by `parse_usage`: it always carries both keys
`max_concurrency` and `credits`. -/
structure UsageInfo where
  max_concurrency : Int
  credits : Int
deriving DecidableEq, Repr

/-- `m.get(key)` on a Python dict decoded from JSON: the last binding of a
duplicated key wins. -/
def dictGet (m : List (String × JsonVal)) (k : String) : Option JsonVal :=
  (m.reverse.find? (fun p => p.1 = k)).map (fun p => p.2)

/-- The numeric reading of a JSON value under Python's
`isinstance(v, (int, float))` check (booleans count, `int(True) = 1`). -/
def asNum : JsonVal → Option PyNum
  | .num p => some p
  | .bool b => some (.int (if b then 1 else 0))
  | _ => none

/-- The aliases scanned for the concurrency limit, in priority order. -/
def concKeys : List String :=
  ["max_concurrency", "max_concurrent_requests", "concurrent_request_limit",
   "concurrency", "concurrent_requests"]

/-- The aliases scanned for the credit balance, in priority order. -/
def creditKeys : List String :=
  ["credits", "available_credits", "credit_balance", "balance",
   "credits_remaining", "remaining_credits"]

/-- The first `for key in (...)` loop of `parse_usage`: the first alias whose
value is present, numeric and satisfies `0 < v <= 10000`; a present but
non-numeric or out-of-range value does not stop the scan.  The accepted
value itself is returned; the loop body then stores `int(v)`. -/
def scanConc (m : List (String × JsonVal)) : List String → Option PyNum
  | [] => none
  | k :: ks =>
      match (dictGet m k).bind asNum with
      | some v => if v.gt0 && v.le10000 then some v else scanConc m ks
      | none => scanConc m ks

/-- The second `for key in (...)` loop of `parse_usage`: the first alias
whose value is present, numeric and satisfies `v >= 0` (which `inf` does).
The accepted value itself is returned; the loop body then stores `int(v)`,
which raises on `inf`. -/
def scanCredits (m : List (String × JsonVal)) : List String → Option PyNum
  | [] => none
  | k :: ks =>
      match (dictGet m k).bind asNum with
      | some v => if v.ge0 then some v else scanCredits m ks
      | none => scanCredits m ks

/-- `parse_usage` from `client.py`.  `none` stands for a body on which
`json.loads` raised `JSONDecodeError` (caught, defaults returned); `some v`
for a body that decoded to `v`.  On a non-object value the attribute lookup
`m.get` raises `AttributeError`, which nothing catches.  Each `int(v)`
conversion can raise (`OverflowError` / `ValueError` on special floats) and
those exceptions propagate uncaught; in the concurrency loop the range check
`0 < v <= 10000` has already excluded the special floats, so that `int(v)`
never actually raises. -/
def parse_usage : Option JsonVal → Except String UsageInfo
  | none => .ok ⟨5, 0⟩
  | some (.obj m) =>
      match (match scanConc m concKeys with
             | some v => pyInt v
             | none => .ok 5) with
      | .error e => .error e
      | .ok mc =>
          match scanCredits m creditKeys with
          | some v =>
              match pyInt v with
              | .error e => .error e
              | .ok c => .ok ⟨mc, c⟩
          | none =>
              match (dictGet m "max_api_credit").bind asNum,
                    (dictGet m "used_api_credit").bind asNum with
              | some a, some b =>
                  match pyInt a with
                  | .error e => .error e
                  | .ok ia =>
                      match pyInt b with
                      | .error e => .error e
                      | .ok ib => .ok ⟨mc, if 0 ≤ ia - ib then ia - ib else 0⟩
              | _, _ => .ok ⟨mc, 0⟩
  | some _ => .error "AttributeError"

/-- Following the (amended) spec's words: the first present numeric value in
`(0, 10000]` among the concurrency aliases, if any. -/
def firstConcMatch (m : List (String × JsonVal)) : Option PyNum :=
  (concKeys.filterMap (fun k =>
    ((dictGet m k).bind asNum).filter (fun v => v.gt0 && v.le10000))).head?

/-- Following the (amended) spec's words: the first present numeric value
`≥ 0` among the credit aliases, if any. -/
def firstCreditMatch (m : List (String × JsonVal)) : Option PyNum :=
  (creditKeys.filterMap (fun k => ((dictGet m k).bind asNum).filter PyNum.ge0)).head?

/-- Following the (amended) spec's words: `max_concurrency` is the `int()`
truncation of the first in-range alias value, default 5. -/
def specConcExtract (m : List (String × JsonVal)) : Except String Int :=
  match firstConcMatch m with
  | some v => pyInt v
  | none => .ok 5

/-- Following the (amended) spec's words: `int(max_api_credit) -
int(used_api_credit)` when both are present numerics (each `int()` raising
on a special float) and the difference is nonnegative, otherwise 0. -/
def specCreditFallback (m : List (String × JsonVal)) : Except String Int :=
  match (dictGet m "max_api_credit").bind asNum,
        (dictGet m "used_api_credit").bind asNum with
  | some a, some b =>
      match pyInt a with
      | .error e => .error e
      | .ok ia =>
          match pyInt b with
          | .error e => .error e
          | .ok ib => .ok (if 0 ≤ ia - ib then ia - ib else 0)
  | _, _ => .ok 0

/-- Following the (amended) spec's words: credits are the `int()` truncation
of the first nonnegative alias value — `int()` raising when that value is
`inf` — else the credit-difference fallback. -/
def specCreditsExtract (m : List (String × JsonVal)) : Except String Int :=
  match firstCreditMatch m with
  | some v => pyInt v
  | none => specCreditFallback m

/-- The (amended) spec's reading of `parse_usage` on a decoded object. -/
def specUsageResult (m : List (String × JsonVal)) : Except String UsageInfo :=
  match specConcExtract m with
  | .error e => .error e
  | .ok mc =>
      match specCreditsExtract m with
      | .error e => .error e
      | .ok c => .ok ⟨mc, c⟩

/-! ## Validator and concurrency resolver -/

/-- The "plan limit exceeded" message, naming both values. -/
def plan_limit_msg (c m : Int) : String :=
  "concurrency " ++ toString c ++ " exceeds your plan limit of " ++ toString m ++
    " (check with: scrapingbee usage)"

/-- The "insufficient credits" message, naming both values. -/
def credits_msg (n cr : Int) : String :=
  "not enough credits: " ++ toString n ++ " requested, " ++ toString cr ++
    " available (check with: scrapingbee usage)"

/-- `validate_batch_run` from `batch.py`.  The usage dict always carries both
keys (see `parse_usage`), so `usage.get("max_concurrency", 5)` and
`usage.get("credits", 0)` are plain field reads.  Raising `ValueError` is
modelled as returning `.error`; the function is otherwise pure. -/
def validate_batch_run (user_concurrency num_inputs : Int) (usage : UsageInfo) :
    Except String Unit :=
  if 0 < user_concurrency ∧ usage.max_concurrency < user_concurrency then
    .error (plan_limit_msg user_concurrency usage.max_concurrency)
  else if 0 < usage.credits ∧ usage.credits < num_inputs then
    .error (credits_msg num_inputs usage.credits)
  else
    .ok ()

/-- `resolve_batch_concurrency` from `batch.py`. -/
def resolve_batch_concurrency (user_concurrency : Int) (usage : UsageInfo)
    (_num_inputs : Int) : Int :=
  if 0 < user_concurrency then user_concurrency else usage.max_concurrency

/-! ## Batch executor (`run_batch`) -/

/-- The pool size computed by `run_batch`:
`concurrency = min(concurrency or 1, len(inputs))`.  Python's `or` keeps any
nonzero value, so a negative `concurrency` passes through unchanged. -/
def effective_pool_size (concurrency : Int) (numInputs : Nat) : Int :=
  min (if concurrency = 0 then 1 else concurrency) (numInputs : Int)

/-- The inner `do_one` of `run_batch`: build the `BatchResult` for index `i`
from the worker's triple. -/
def do_one (fn : String → Bytes × Int × Option String) (inputs : List String)
    (i : Nat) : BatchResult :=
  let inp := inputs.getD i ""
  let r := fn inp
  ⟨i, inp, r.1, r.2.1, r.2.2⟩

/-- `run_batch` from `batch.py`.  `ThreadPoolExecutor(max_workers=w)` raises
`ValueError` when `w ≤ 0`; otherwise every index is submitted, results are
collected in completion order `order` into the slot named by their `index`
field, and the `None` slots are filtered out at the end. -/
def run_batch (inputs : List String) (concurrency : Int)
    (fn : String → Bytes × Int × Option String) (order : List Nat) :
    Except String (List BatchResult) :=
  let pool := effective_pool_size concurrency inputs.length
  if pool ≤ 0 then
    .error "max_workers must be greater than 0"
  else
    let slots := order.foldl (fun acc i => acc.set i (some (do_one fn inputs i)))
      ((List.replicate inputs.length none : List (Option BatchResult)))
    .ok (slots.filterMap id)

/-! ## Result writer (`write_batch_output_to_dir`) -/

/-- A write-effect record: the file-write events in order, the stderr lines
in order, and the function's return value. -/
structure WriteEffects where
  files : List (String × Bytes)
  stderrLines : List String
  ret : String
deriving DecidableEq, Repr

/-- Model of `Path(p).resolve()`: absolute paths are kept, relative ones are
anchored at the current working directory. -/
def resolvePath (cwd p : String) : String :=
  match p.data with
  | c :: _ => if c = '/' then p else cwd ++ "/" ++ p
  | [] => cwd

/-- `default_batch_output_dir` from `batch.py`; `ts` is the formatted
`datetime.now()` timestamp. -/
def default_batch_output_dir (ts : String) : String :=
  "batch_" ++ ts

/-- The diagnostic line printed for a failed item, naming the 1-based item
number, the original input and the error. -/
def item_diag (r : BatchResult) (e : String) : String :=
  "Item " ++ toString (r.index + 1) ++ " ('" ++ r.input ++ "'): " ++ e

/-- The verbose status line printed for a successful item. -/
def item_status (r : BatchResult) : String :=
  "Item " ++ toString (r.index + 1) ++ ": HTTP " ++ toString r.status_code

/-- Path of the success output file of 1-based item `n`. -/
def txt_path (absDir : String) (n : Nat) : String :=
  absDir ++ "/" ++ toString n ++ ".txt"

/-- Path of the error-body file of 1-based item `n`. -/
def err_path (absDir : String) (n : Nat) : String :=
  absDir ++ "/" ++ toString n ++ ".err"

/-- The `for r in results` loop of `write_batch_output_to_dir`, returning the
file-write events and the stderr lines it performs, in order. -/
def writeLoop (absDir : String) (verbose : Bool) :
    List BatchResult → List (String × Bytes) × List String
  | [] => ([], [])
  | r :: rest =>
      let tail := writeLoop absDir verbose rest
      match r.error with
      | some e =>
          (if r.body = [] then tail.1 else (err_path absDir (r.index + 1), r.body) :: tail.1,
           item_diag r e :: tail.2)
      | none =>
          ((txt_path absDir (r.index + 1), r.body) :: tail.1,
           if verbose then item_status r :: tail.2 else tail.2)

/-- `write_batch_output_to_dir` from `batch.py`.  `ts` feeds the default
directory name, `cwd` anchors `Path(...).resolve()`.  The
`os.makedirs(abs_dir, exist_ok=True)` call never fails on a pre-existing
directory, so the model has no error case. -/
def write_batch_output_to_dir (results : List BatchResult) (output_dir : Option String)
    (verbose : Bool) (ts cwd : String) : WriteEffects :=
  let dir := output_dir.getD (default_batch_output_dir ts)
  let absDir := resolvePath cwd dir
  let out := writeLoop absDir verbose results
  ⟨out.1, out.2, absDir⟩

/-- Following the spec's words, the file writes one result contributes: a
failed item writes no `.txt` and writes its body to `<N>.err` exactly when
that body is non-empty; a successful item writes its body verbatim to
`<N>.txt`, `N` being the 1-based item number. -/
def specFileEvents (absDir : String) (r : BatchResult) : List (String × Bytes) :=
  match r.error with
  | some _ => if r.body = [] then [] else [(err_path absDir (r.index + 1), r.body)]
  | none => [(txt_path absDir (r.index + 1), r.body)]

/-- Following the spec's words, the stderr lines one result contributes: a
diagnostic line for a failure, a status line for a success when verbose. -/
def specStderr (verbose : Bool) (r : BatchResult) : List String :=
  match r.error with
  | some e => [item_diag r e]
  | none => if verbose then [item_status r] else []

/-- A file store: final content of each path, if the file exists. -/
def Store := String → Option Bytes

/-- One write event applied to a store. -/
def updateStore (s : Store) (n : String) (b : Bytes) : Store :=
  fun q => if q = n then some b else s q

/-- Replay a list of write events on a store, in order. -/
def applyEvents (s : Store) : List (String × Bytes) → Store
  | [] => s
  | e :: rest => applyEvents (updateStore s e.1 e.2) rest

/-! ## Theorems -/

/-- The filter-comprehension of `read_input_file` agrees with mapping `strip`
over the lines and then dropping the empty ones. -/
theorem filterMap_strip_eq (l : List String) :
    (l.filterMap (fun line =>
      let t := pyStrip line
      if t = "" then none else some t)) =
      (l.map pyStrip).filter (fun t => t ≠ "") := by
  induction l with
  | nil => rfl
  | cons a l ih =>
      simp only [List.filterMap_cons, List.map_cons, List.filter_cons]
      by_cases h : pyStrip a = "" <;> simp [h, ih]

/-- C6: `read_input_file` returns the file's lines in order, each trimmed of
surrounding whitespace, with lines that become empty discarded, and fails
with an empty-input error exactly when zero lines remain after trimming;
the file `"  a \n\n b\n\t\n"` yields exactly `["a", "b"]`. -/
theorem read_input_file_spec (path content : String) :
    read_input_file path content =
      (if specTrimmedLines content = [] then
        .error ("input file \"" ++ path ++ "\" has no non-empty lines")
      else
        .ok (specTrimmedLines content)) ∧
    read_input_file path "  a \n\n b\n\t\n" = .ok ["a", "b"] := by
  constructor
  · unfold read_input_file specTrimmedLines
    rw [filterMap_strip_eq]
  · rfl

/-- C9: on an empty input list `run_batch` raises for every concurrency
value: the computed pool size is never positive there, and
`ThreadPoolExecutor` rejects it. -/
theorem run_batch_empty_raises (C : Int)
    (fn : String → Bytes × Int × Option String) (order : List Nat) :
    run_batch ([] : List String) C fn order =
      .error "max_workers must be greater than 0" := by
  have h : effective_pool_size C ([] : List String).length ≤ 0 := by
    unfold effective_pool_size
    split <;> simp
  unfold run_batch
  rw [if_pos h]

/-- C2 counterexample: for concurrency `-1` and one input, the computed pool
size is `-1`, not `min (max (-1) 1) 1 = 1`; `run_batch` raises instead of
running with one worker. -/
theorem effective_pool_size_neg_counterexample :
    effective_pool_size (-1) 1 ≠ min (max (-1) 1) 1 ∧
    run_batch ["a"] (-1) (fun _ => ([], 200, none)) [0] =
      .error "max_workers must be greater than 0" := by
  constructor
  · decide
  · rfl

/-- C2 (amended): for a non-empty input list, the pool size formula
`min(max(C,1), numInputs)` holds for every concurrency `C ≥ 0` (Python's
`C or 1` only replaces `0` by `1`), and for `C > numInputs` the pool size is
`numInputs`; a negative `C` passes through unchanged, giving a negative pool
size on which `run_batch` raises. -/
theorem effective_pool_size_spec (C : Int) (n : Nat) (hn : 1 ≤ n) :
    (0 ≤ C → effective_pool_size C n = min (max C 1) (n : Int)) ∧
    ((n : Int) < C → effective_pool_size C n = (n : Int)) ∧
    (C < 0 → effective_pool_size C n = C) ∧
    (C < 0 → ∀ (inputs : List String) (fn : String → Bytes × Int × Option String)
      (order : List Nat), inputs.length = n →
      run_batch inputs C fn order = .error "max_workers must be greater than 0") := by
  refine ⟨?_, ?_, ?_, ?_⟩
  · intro h
    unfold effective_pool_size
    split <;> omega
  · intro h
    unfold effective_pool_size
    split <;> omega
  · intro h
    unfold effective_pool_size
    split <;> omega
  · intro h inputs fn order hlen
    have hpool : effective_pool_size C inputs.length ≤ 0 := by
      unfold effective_pool_size
      split <;> omega
    unfold run_batch
    rw [if_pos hpool]

/-- Witness for `effective_pool_size_spec` at `C = 7`, `n = 3`. -/
theorem effective_pool_size_spec_witness :
    effective_pool_size 7 3 = min (max 7 1) (3 : Int) ∧ effective_pool_size 7 3 = (3 : Int) :=
  ⟨(effective_pool_size_spec 7 3 (by decide)).1 (by decide),
   (effective_pool_size_spec 7 3 (by decide)).2.1 (by decide)⟩

/-- C3: `validate_batch_run` raises exactly when the requested concurrency is
positive and exceeds the plan limit, or when credits are positive and the
input count exceeds them; each error names both values, a credit balance of
exactly 0 disables the credit check, and the function is pure. -/
theorem validate_batch_run_spec (c n : Int) (u : UsageInfo) :
    ((∃ e, validate_batch_run c n u = .error e) ↔
      ((0 < c ∧ u.max_concurrency < c) ∨ (0 < u.credits ∧ u.credits < n))) ∧
    (0 < c ∧ u.max_concurrency < c →
      validate_batch_run c n u = .error (plan_limit_msg c u.max_concurrency)) ∧
    (¬(0 < c ∧ u.max_concurrency < c) → 0 < u.credits ∧ u.credits < n →
      validate_batch_run c n u = .error (credits_msg n u.credits)) ∧
    (u.credits = 0 → ¬(0 < c ∧ u.max_concurrency < c) →
      validate_batch_run c n u = .ok ()) := by
  unfold validate_batch_run
  split_ifs with h1 h2 <;>
    refine ⟨?_, ?_, ?_, ?_⟩ <;> simp [h1] <;> try simp [h2]
  · omega
  · omega
  · intro h
    omega

/-- Witness for `validate_batch_run_spec`: `validate(10, 3, {5, 0})` fails and
`validate(3, 100, {5, 0})` succeeds (credits 0 means unlimited). -/
theorem validate_batch_run_spec_witness :
    (∃ e, validate_batch_run 10 3 ⟨5, 0⟩ = .error e) ∧
    validate_batch_run 3 100 ⟨5, 0⟩ = .ok () :=
  ⟨(validate_batch_run_spec 10 3 ⟨5, 0⟩).1.mpr (Or.inl (by decide)),
   (validate_batch_run_spec 3 100 ⟨5, 0⟩).2.2.2 (by decide) (by decide)⟩

/-- C10 counterexample: the body `{}` decodes successfully, yet `parse_usage`
returns the default `{max_concurrency: 5, credits: 0}` — the defaults are not
returned only on JSON decode failure. -/
theorem parse_usage_defaults_counterexample :
    parse_usage (some (JsonVal.obj [])) = .ok ⟨5, 0⟩ ∧
    some (JsonVal.obj []) ≠ (none : Option JsonVal) := by
  exact ⟨rfl, by simp⟩

/-- C10 (amended): `parse_usage` falls back to the defaults, rather than
raising, whenever JSON decoding of the body fails (an object body with no
recognized fields yields the same default values); and a body that decodes
to a non-object JSON value, such as `[]` or `3`, makes `parse_usage` raise an
uncaught exception instead of returning the default `UsageInfo`. -/
theorem parse_usage_nonobject_raises :
    parse_usage none = .ok ⟨5, 0⟩ ∧
    (∃ e, parse_usage (some (JsonVal.arr [])) = .error e) ∧
    (∃ e, parse_usage (some (JsonVal.num (PyNum.int 3))) = .error e) :=
  ⟨rfl, ⟨"AttributeError", rfl⟩, ⟨"AttributeError", rfl⟩⟩

/-- Index-keyed slot assignment: folding `set` over a completion order writes
`g i` into slot `i`; slots named in the order hold their value, all others
are untouched.  Last-write-wins is harmless because every write to slot `i`
writes the same value `g i`. -/
theorem foldl_set_getElem? {α : Type} (g : Nat → α) (order : List Nat) :
    ∀ (init : List α) (k : Nat),
    (order.foldl (fun acc i => acc.set i (g i)) init)[k]? =
      if k ∈ order ∧ k < init.length then some (g k) else init[k]? := by
  induction order with
  | nil => intro init k; simp
  | cons i rest ih =>
      intro init k
      rw [List.foldl_cons, ih]
      by_cases hk : k ∈ rest
      · by_cases hlen : k < init.length
        · simp [hk, hlen]
        · have h1 : ¬(k ∈ rest ∧ k < (init.set i (g i)).length) := by
            simp [hlen]
          have h2 : ¬(k ∈ i :: rest ∧ k < init.length) := by
            simp [hlen]
          rw [if_neg h1, if_neg h2, List.getElem?_set]
          split
          · rw [if_neg (by omega), List.getElem?_eq_none (by omega)]
          · rfl
      · by_cases hik : k = i
        · subst hik
          have h1 : ¬(k ∈ rest ∧ k < (init.set k (g k)).length) := by simp [hk]
          rw [if_neg h1, List.getElem?_set, if_pos rfl]
          by_cases hlen : k < init.length
          · simp [hlen]
          · rw [if_neg hlen, if_neg (by simp [hk, hlen])]
            exact (List.getElem?_eq_none (by omega)).symm
        · have h1 : ¬(k ∈ rest ∧ k < (init.set i (g i)).length) := by simp [hk]
          have h2 : ¬(k ∈ i :: rest ∧ k < init.length) := by
            intro h
            rcases h with ⟨hmem, _⟩
            rcases List.mem_cons.mp hmem with h | h
            · exact hik h
            · exact hk h
          rw [if_neg h1, if_neg h2, List.getElem?_set_ne (fun h => hik h.symm)]

/-- When the completion order is a permutation of the input indices, the slot
array ends up holding exactly `some (g k)` at every position `k`. -/
theorem foldl_set_perm {α : Type} (g : Nat → α) (order : List Nat) (n : Nat)
    (hperm : order.Perm (List.range n)) :
    (order.foldl (fun acc i => acc.set i (some (g i)))
        (List.replicate n (none : Option α))) =
      (List.range n).map (fun k => some (g k)) := by
  apply List.ext_getElem?
  intro k
  rw [foldl_set_getElem? (fun i => some (g i)) order]
  by_cases hk : k < n
  · have hmem : k ∈ order := hperm.mem_iff.mpr (List.mem_range.mpr hk)
    rw [if_pos ⟨hmem, by simpa using hk⟩]
    rw [List.getElem?_map, List.getElem?_range hk]
    rfl
  · have hmem : k ∉ order := fun h => hk (List.mem_range.mp (hperm.mem_iff.mp h))
    rw [if_neg (by simp [hmem])]
    rw [List.getElem?_replicate, if_neg hk, List.getElem?_map,
      List.getElem?_eq_none (by simpa using hk)]
    rfl

/-- Dropping the `None` slots from a fully filled slot array recovers the
mapped list. -/
theorem filterMap_id_map_some {α β : Type} (f : α → β) (l : List α) :
    (l.map (fun x => some (f x))).filterMap id = l.map f := by
  induction l with
  | nil => rfl
  | cons a l ih => simp [ih]

/-- C1: for a non-empty input list, any concurrency `C ≥ 1` and any worker
`fn` that returns a `(body, status_code, error)` triple without raising,
`run_batch` returns — for every completion order of the concurrent calls — a
list of length `inputs.length` whose `k`-th element is the `BatchResult` with
`index = k`, `input = inputs[k]`, and body, status code and error exactly as
`fn` returned them for `inputs[k]`; each element depends only on `fn` at its
own input, so one item's failure leaves every other item's result
unchanged. -/
theorem run_batch_ordered (inputs : List String) (C : Int)
    (fn : String → Bytes × Int × Option String) (order : List Nat)
    (hne : inputs ≠ []) (hC : 1 ≤ C)
    (hord : order.Perm (List.range inputs.length)) :
    run_batch inputs C fn order =
      .ok ((List.range inputs.length).map (fun k =>
        ⟨k, inputs.getD k "", (fn (inputs.getD k "")).1,
         (fn (inputs.getD k "")).2.1, (fn (inputs.getD k "")).2.2⟩)) := by
  have hlen : 1 ≤ inputs.length := List.length_pos.mpr hne
  have hpool : ¬(effective_pool_size C inputs.length ≤ 0) := by
    unfold effective_pool_size
    split <;> omega
  simp only [run_batch]
  rw [if_neg hpool]
  rw [foldl_set_perm (do_one fn inputs) order inputs.length hord,
    filterMap_id_map_some]
  rfl

/-- Witness for `run_batch_ordered`: two inputs, concurrency 1, completion
order reversed, with the worker failing on the second input only. -/
theorem run_batch_ordered_witness :
    (["a", "b"] : List String) ≠ [] ∧ (1 : Int) ≤ 1 ∧
    ([1, 0] : List Nat).Perm (List.range 2) ∧
    run_batch ["a", "b"] 1
        (fun s => ([s.length], 200, if s = "b" then some "boom" else none)) [1, 0] =
      .ok [⟨0, "a", [1], 200, none⟩, ⟨1, "b", [1], 200, some "boom"⟩] :=
  ⟨by decide, by decide, by decide,
   (run_batch_ordered ["a", "b"] 1
      (fun s => ([s.length], 200, if s = "b" then some "boom" else none)) [1, 0]
      (by decide) (by decide) (by decide)).trans (by rfl)⟩

/-- The concurrency `for`-loop scan equals the (amended) spec's
first-match-in-range reading of the alias chain. -/
theorem scanConc_eq_firstMatch (m : List (String × JsonVal)) :
    ∀ ks : List String,
    scanConc m ks = (ks.filterMap (fun k =>
      ((dictGet m k).bind asNum).filter (fun v => v.gt0 && v.le10000))).head? := by
  intro ks
  induction ks with
  | nil => rfl
  | cons k ks ih =>
      rw [List.filterMap_cons]
      unfold scanConc
      cases h : (dictGet m k).bind asNum with
      | none => simp [h, ih]
      | some v =>
          by_cases hr : (v.gt0 && v.le10000) = true
          · simp [h, Option.filter, hr]
          · simp [h, Option.filter, hr, ih]

/-- The credits `for`-loop scan equals the (amended) spec's
first-nonnegative-match reading of the alias chain. -/
theorem scanCredits_eq_firstMatch (m : List (String × JsonVal)) :
    ∀ ks : List String,
    scanCredits m ks = (ks.filterMap (fun k =>
      ((dictGet m k).bind asNum).filter PyNum.ge0)).head? := by
  intro ks
  induction ks with
  | nil => rfl
  | cons k ks ih =>
      rw [List.filterMap_cons]
      unfold scanCredits
      cases h : (dictGet m k).bind asNum with
      | none => simp [h, ih]
      | some v =>
          by_cases hr : v.ge0 = true
          · simp [h, Option.filter, hr]
          · simp [h, Option.filter, hr, ih]

/-- C4 counterexample: `parse_usage` does not extract the numeric alias
values themselves.  The body `{"credits": 2.5}` (the float `2.5` is
`PyNum.float 5 1`, the exact fraction `5/2`) stores `int(2.5) = 2`, and
`2 ≠ 5/2` (`2 * 2 ≠ 5`); and the valid-JSON body `{"credits": 1e400}`
decodes to `inf`, passes `inf >= 0`, and makes `parse_usage` raise an
uncaught `OverflowError` at `int(inf)` instead of extracting or
defaulting. -/
theorem parse_usage_numeric_counterexample :
    parse_usage (some (JsonVal.obj [("credits", JsonVal.num (PyNum.float 5 1))])) =
      .ok ⟨5, 2⟩ ∧
    (2 : Int) * 2 ≠ 5 ∧
    parse_usage (some (JsonVal.obj [("credits", JsonVal.num PyNum.inf)])) =
      .error "OverflowError" := by
  refine ⟨by rfl, by decide, by rfl⟩

/-- C4 (amended): on a decoded JSON object, `parse_usage` stores
`max_concurrency` as the `int()` truncation of the first present numeric
alias value in `(0, 10000]` (default 5) and `credits` as the `int()`
truncation of the first present nonnegative numeric alias value — raising
an uncaught `OverflowError` when that value is the float `inf` — falling
back to `int(max_api_credit) - int(used_api_credit)` when both are present
numerics (each `int()` raising on a special float) and the difference is
nonnegative, and otherwise 0; a body that is not valid JSON yields the
defaults `{5, 0}` rather than failing. -/
theorem parse_usage_spec (m : List (String × JsonVal)) :
    parse_usage (some (JsonVal.obj m)) = specUsageResult m ∧
    parse_usage none = .ok ⟨5, 0⟩ := by
  refine ⟨?_, rfl⟩
  simp only [parse_usage, specUsageResult, specConcExtract, specCreditsExtract,
    specCreditFallback, firstConcMatch, firstCreditMatch,
    ← scanConc_eq_firstMatch, ← scanCredits_eq_firstMatch]
  cases hconc : scanConc m concKeys with
  | some v =>
      cases hv : pyInt v with
      | error e => simp [hv]
      | ok mc =>
          simp only [hv]
          cases hcred : scanCredits m creditKeys with
          | some w => cases hw : pyInt w <;> simp [hw]
          | none =>
              cases ha : (dictGet m "max_api_credit").bind asNum with
              | none => simp
              | some a =>
                  cases hb : (dictGet m "used_api_credit").bind asNum with
                  | none => simp
                  | some b =>
                      cases hia : pyInt a with
                      | error e => simp [hia]
                      | ok ia =>
                          simp only [hia]
                          cases hib : pyInt b <;> simp [hib]
  | none =>
      cases hcred : scanCredits m creditKeys with
      | some w => cases hw : pyInt w <;> simp [hw]
      | none =>
          cases ha : (dictGet m "max_api_credit").bind asNum with
          | none => simp
          | some a =>
              cases hb : (dictGet m "used_api_credit").bind asNum with
              | none => simp
              | some b =>
                  cases hia : pyInt a with
                  | error e => simp [hia]
                  | ok ia =>
                      simp only [hia]
                      cases hib : pyInt b <;> simp [hib]

/-- Every value accepted by the concurrency scan passed `0 < v <= 10000`. -/
theorem scanConc_accepted (m : List (String × JsonVal)) :
    ∀ ks v, scanConc m ks = some v → (v.gt0 && v.le10000) = true := by
  intro ks
  induction ks with
  | nil => intro v h; simp [scanConc] at h
  | cons k ks ih =>
      intro v h
      unfold scanConc at h
      split at h
      · split at h
        · cases h
          assumption
        · exact ih v h
      · exact ih v h

/-- Every value accepted by the credits scan passed `v >= 0`. -/
theorem scanCredits_accepted (m : List (String × JsonVal)) :
    ∀ ks v, scanCredits m ks = some v → v.ge0 = true := by
  intro ks
  induction ks with
  | nil => intro v h; simp [scanCredits] at h
  | cons k ks ih =>
      intro v h
      unfold scanCredits at h
      split at h
      · split at h
        · cases h
          assumption
        · exact ih v h
      · exact ih v h

/-- `int(v)` of a value that passed `0 < v` is nonnegative (truncation is
toward zero). -/
theorem pyInt_nonneg_of_gt0 (v : PyNum) (i : Int) (hg : v.gt0 = true)
    (h : pyInt v = .ok i) : 0 ≤ i := by
  cases v with
  | int n =>
      cases h
      simpa [PyNum.gt0] using Int.le_of_lt (by simpa [PyNum.gt0] using hg)
  | float n d =>
      cases h
      have hn : 0 < n := by simpa [PyNum.gt0] using hg
      exact Int.tdiv_nonneg (Int.le_of_lt hn) (by omega)
  | inf => cases h
  | ninf => cases h
  | nan => cases h

/-- `int(v)` of a value that passed `v >= 0` is nonnegative. -/
theorem pyInt_nonneg_of_ge0 (v : PyNum) (i : Int) (hg : v.ge0 = true)
    (h : pyInt v = .ok i) : 0 ≤ i := by
  cases v with
  | int n =>
      cases h
      simpa [PyNum.ge0] using hg
  | float n d =>
      cases h
      have hn : 0 ≤ n := by simpa [PyNum.ge0] using hg
      exact Int.tdiv_nonneg hn (by omega)
  | inf => cases h
  | ninf => cases h
  | nan => cases h

/-- The concurrency value stored by `parse_usage` is nonnegative. -/
theorem concResult_nonneg (m : List (String × JsonVal)) (mc : Int)
    (h : (match scanConc m concKeys with
          | some v => pyInt v
          | none => .ok 5) = .ok mc) : 0 ≤ mc := by
  revert h
  cases hc : scanConc m concKeys with
  | some v =>
      intro h
      have hg : (v.gt0 && v.le10000) = true := scanConc_accepted m concKeys v hc
      exact pyInt_nonneg_of_gt0 v mc (by simp_all) h
  | none =>
      intro h
      cases h
      norm_num

/-- C7 counterexample: the body `{"max_concurrency": 0.5}` (the float `0.5`
is `PyNum.float 1 1`, the exact fraction `1/2`) passes `0 < 0.5 <= 10000`
and stores `int(0.5) = 0`, so `parse_usage` returns with
`max_concurrency = 0 < 1`, and `resolve_batch_concurrency 0` on that usage
returns `0`, which is not positive. -/
theorem parse_usage_zero_concurrency_counterexample :
    parse_usage (some (JsonVal.obj [("max_concurrency", JsonVal.num (PyNum.float 1 1))])) =
      .ok ⟨0, 0⟩ ∧
    ¬(1 ≤ (UsageInfo.mk 0 0).max_concurrency) ∧
    resolve_batch_concurrency 0 ⟨0, 0⟩ 1 = 0 ∧
    ¬(0 < resolve_batch_concurrency 0 ⟨0, 0⟩ 1) := by
  refine ⟨by rfl, by decide, by rfl, by decide⟩

/-- C7 (amended): whenever `parse_usage` returns (it does not raise), the
resulting usage info has `max_concurrency ≥ 0` and `credits ≥ 0` —
`max_concurrency` can be 0 when a fractional float alias value below 1 is
truncated by `int()` — and `resolve_batch_concurrency` returns the requested
concurrency verbatim when it is positive (hence a positive integer), and
`usage.max_concurrency` otherwise, which is positive whenever it is at
least 1. -/
theorem parse_usage_resolve_invariant (j : Option JsonVal) (u : UsageInfo)
    (rc k : Int) (h : parse_usage j = .ok u) :
    0 ≤ u.max_concurrency ∧ 0 ≤ u.credits ∧
    resolve_batch_concurrency rc u k = (if 0 < rc then rc else u.max_concurrency) ∧
    (0 < rc → 0 < resolve_batch_concurrency rc u k) ∧
    (1 ≤ u.max_concurrency → 0 < resolve_batch_concurrency rc u k) := by
  have hu : 0 ≤ u.max_concurrency ∧ 0 ≤ u.credits := by
    cases j with
    | none =>
        simp only [parse_usage, Except.ok.injEq] at h
        rw [← h]
        norm_num
    | some v =>
        cases v with
        | obj m =>
            simp only [parse_usage] at h
            split at h
            · exact absurd h (by simp)
            · rename_i mc hmc
              have h0mc : 0 ≤ mc := concResult_nonneg m mc hmc
              split at h
              · rename_i w hw
                split at h
                · exact absurd h (by simp)
                · rename_i c hc
                  rw [Except.ok.injEq] at h
                  rw [← h]
                  exact ⟨h0mc,
                    pyInt_nonneg_of_ge0 w c (scanCredits_accepted m creditKeys w hw) hc⟩
              · split at h
                · rename_i a b ha hb
                  split at h
                  · exact absurd h (by simp)
                  · split at h
                    · exact absurd h (by simp)
                    · rw [Except.ok.injEq] at h
                      rw [← h]
                      refine ⟨h0mc, ?_⟩
                      dsimp only
                      split <;> omega
                · rw [Except.ok.injEq] at h
                  rw [← h]
                  exact ⟨h0mc, le_refl 0⟩
        | null => simp [parse_usage] at h
        | bool b => simp [parse_usage] at h
        | num n => simp [parse_usage] at h
        | str s => simp [parse_usage] at h
        | arr l => simp [parse_usage] at h
  refine ⟨hu.1, hu.2, rfl, ?_, ?_⟩
  · intro hrc
    unfold resolve_batch_concurrency
    split <;> omega
  · intro hmc
    unfold resolve_batch_concurrency
    split <;> omega

/-- Witness for `parse_usage_resolve_invariant` at the empty-object body with
requested concurrency 0. -/
theorem parse_usage_resolve_invariant_witness :
    0 ≤ (UsageInfo.mk 5 0).max_concurrency ∧ 0 ≤ (UsageInfo.mk 5 0).credits ∧
    resolve_batch_concurrency 0 ⟨5, 0⟩ 1 =
      (if (0 : Int) < 0 then 0 else (UsageInfo.mk 5 0).max_concurrency) ∧
    ((0 : Int) < 0 → 0 < resolve_batch_concurrency 0 ⟨5, 0⟩ 1) ∧
    (1 ≤ (UsageInfo.mk 5 0).max_concurrency → 0 < resolve_batch_concurrency 0 ⟨5, 0⟩ 1) :=
  parse_usage_resolve_invariant (some (JsonVal.obj [])) ⟨5, 0⟩ 0 1 rfl

/-- The writer loop performs exactly the per-item file writes and stderr
lines of the specification, item by item in input order. -/
theorem writeLoop_eq_flatMap (absDir : String) (verbose : Bool) :
    ∀ results : List BatchResult,
    writeLoop absDir verbose results =
      (results.flatMap (specFileEvents absDir), results.flatMap (specStderr verbose)) := by
  intro results
  induction results with
  | nil => rfl
  | cons r rest ih =>
      unfold writeLoop
      rw [ih, List.flatMap_cons, List.flatMap_cons]
      unfold specFileEvents specStderr
      cases r.error with
      | some e =>
          by_cases hb : r.body = [] <;> simp [hb]
      | none =>
          by_cases hv : verbose <;> simp [hv]

/-- C5: the writer returns the absolute path of the target directory and, for
each result in order, writes the body verbatim to `<index+1>.txt` when the
error is absent; when the error is present it writes no `.txt` for that item,
writes the body to `<index+1>.err` exactly when that body is non-empty, and
emits a diagnostic line naming the 1-based item number, the original input
and the error. -/
theorem write_batch_output_spec (results : List BatchResult) (dir : String)
    (verbose : Bool) (ts cwd : String) :
    (write_batch_output_to_dir results (some dir) verbose ts cwd).ret =
      resolvePath cwd dir ∧
    (write_batch_output_to_dir results (some dir) verbose ts cwd).files =
      results.flatMap (specFileEvents (resolvePath cwd dir)) ∧
    (write_batch_output_to_dir results (some dir) verbose ts cwd).stderrLines =
      results.flatMap (specStderr verbose) := by
  have h : write_batch_output_to_dir results (some dir) verbose ts cwd =
      ⟨(writeLoop (resolvePath cwd dir) verbose results).1,
       (writeLoop (resolvePath cwd dir) verbose results).2,
       resolvePath cwd dir⟩ := rfl
  rw [h, writeLoop_eq_flatMap]
  exact ⟨rfl, rfl, rfl⟩

/-- The last write to a path in a list of write events, if any. -/
def lastWrite : List (String × Bytes) → String → Option Bytes
  | [], _ => none
  | e :: rest, q =>
      match lastWrite rest q with
      | some b => some b
      | none => if q = e.1 then some e.2 else none

/-- A store after replaying events holds the last write where one exists and
is untouched elsewhere. -/
theorem applyEvents_apply (evs : List (String × Bytes)) :
    ∀ (s : Store) (q : String),
    applyEvents s evs q =
      (match lastWrite evs q with
       | some b => some b
       | none => s q) := by
  induction evs with
  | nil => intro s q; rfl
  | cons e rest ih =>
      intro s q
      have h1 : applyEvents s (e :: rest) = applyEvents (updateStore s e.1 e.2) rest := rfl
      have h2 : lastWrite (e :: rest) q =
          (match lastWrite rest q with
           | some b => some b
           | none => if q = e.1 then some e.2 else none) := rfl
      rw [h1, ih, h2]
      cases h : lastWrite rest q with
      | some b => rfl
      | none =>
          unfold updateStore
          by_cases hq : q = e.1 <;> simp [hq]

/-- Replaying the same write events a second time changes nothing. -/
theorem applyEvents_idem (s : Store) (evs : List (String × Bytes)) :
    applyEvents (applyEvents s evs) evs = applyEvents s evs := by
  funext q
  rw [applyEvents_apply, applyEvents_apply]
  cases lastWrite evs q with
  | some b => rfl
  | none => rfl

/-- C8: running the writer twice with the same results and the same explicit
target directory succeeds both times (directory creation uses
`exist_ok=True`, so a pre-existing directory is no error and the model is
total), replaying its writes a second time leaves every file with content
identical to a single run, and the returned absolute path is the same
deterministic resolution of the directory both times. -/
theorem write_batch_output_idempotent (results : List BatchResult) (dir : String)
    (verbose : Bool) (ts cwd : String) (store : Store) :
    applyEvents
        (applyEvents store (write_batch_output_to_dir results (some dir) verbose ts cwd).files)
        (write_batch_output_to_dir results (some dir) verbose ts cwd).files =
      applyEvents store (write_batch_output_to_dir results (some dir) verbose ts cwd).files ∧
    (write_batch_output_to_dir results (some dir) verbose ts cwd).ret =
      resolvePath cwd dir :=
  ⟨applyEvents_idem store _, rfl⟩
